import Mathlib

/-!
Shallow embedding of the kimage repository (src/bin/serve.rs, src/bin/upload.rs):
an image-hosting server (upload handler, serve handler, config loader, filename
generator) and its upload client. Bytes are `Nat` below 256, byte strings are
`List Nat`, the filesystem is an association list from paths to contents, and
the external effects (multipart stream, config parse, write/read success,
HTTP exchange, clipboard) are explicit parameters.
-/

namespace Kimage

/-! ### Base64 (standard alphabet, with padding)

Model of `base64::engine::general_purpose::STANDARD` used by both binaries:
encode pads with `'='` (ASCII 61); decode requires canonical padding, a length
that is a multiple of four, and zero trailing bits. -/

/-- The standard-alphabet byte for a sextet (0..63): `A-Z`, `a-z`, `0-9`, `+`, `/`. -/
def byteOfSextet (s : Nat) : Nat :=
  if s < 26 then 65 + s
  else if s < 52 then 97 + (s - 26)
  else if s < 62 then 48 + (s - 52)
  else if s = 62 then 43
  else 47

/-- The sextet a standard-alphabet byte stands for, `none` off the alphabet
(`'='` included). -/
def sextetOfByte (c : Nat) : Option Nat :=
  if 65 ≤ c ∧ c ≤ 90 then some (c - 65)
  else if 97 ≤ c ∧ c ≤ 122 then some (c - 97 + 26)
  else if 48 ≤ c ∧ c ≤ 57 then some (c - 48 + 52)
  else if c = 43 then some 62
  else if c = 47 then some 63
  else none

/-- `STANDARD.encode`: three input bytes become four alphabet bytes; a final
group of one or two bytes is padded with `'='` (61). -/
def encodeB64 : List Nat → List Nat
  | [] => []
  | [b0] => [byteOfSextet (b0 / 4), byteOfSextet (b0 % 4 * 16), 61, 61]
  | [b0, b1] =>
      [byteOfSextet (b0 / 4), byteOfSextet (b0 % 4 * 16 + b1 / 16),
       byteOfSextet (b1 % 16 * 4), 61]
  | b0 :: b1 :: b2 :: rest =>
      byteOfSextet (b0 / 4) :: byteOfSextet (b0 % 4 * 16 + b1 / 16) ::
      byteOfSextet (b1 % 16 * 4 + b2 / 64) :: byteOfSextet (b2 % 64) :: encodeB64 rest

/-- Decode the final four-byte group: `'='` may close the group (one or two),
and the unused low bits of the last data sextet must be zero. -/
def decodeLast (c0 c1 c2 c3 : Nat) : Option (List Nat) :=
  if c3 = 61 then
    if c2 = 61 then
      match sextetOfByte c0, sextetOfByte c1 with
      | some s0, some s1 =>
          if s1 % 16 = 0 then some [s0 * 4 + s1 / 16] else none
      | _, _ => none
    else
      match sextetOfByte c0, sextetOfByte c1, sextetOfByte c2 with
      | some s0, some s1, some s2 =>
          if s2 % 4 = 0 then some [s0 * 4 + s1 / 16, s1 % 16 * 16 + s2 / 4] else none
      | _, _, _ => none
  else
    match sextetOfByte c0, sextetOfByte c1, sextetOfByte c2, sextetOfByte c3 with
    | some s0, some s1, some s2, some s3 =>
        some [s0 * 4 + s1 / 16, s1 % 16 * 16 + s2 / 4, s2 % 4 * 64 + s3]
    | _, _, _, _ => none

/-- `STANDARD.decode`: groups of four; `'='` only in the final group; any
leftover of one to three bytes is an error. -/
def decodeB64 : List Nat → Option (List Nat)
  | [] => some []
  | c0 :: c1 :: c2 :: c3 :: rest =>
      if rest = [] then decodeLast c0 c1 c2 c3
      else
        match sextetOfByte c0, sextetOfByte c1, sextetOfByte c2, sextetOfByte c3,
              decodeB64 rest with
        | some s0, some s1, some s2, some s3, some ds =>
            some ((s0 * 4 + s1 / 16) :: (s1 % 16 * 16 + s2 / 4) :: (s2 % 4 * 64 + s3) :: ds)
        | _, _, _, _, _ => none
  | _ => none

theorem sextet_roundtrip : ∀ s : Fin 64, sextetOfByte (byteOfSextet s.val) = some s.val := by
  decide

theorem byteOfSextet_ne_61 : ∀ s : Fin 64, byteOfSextet s.val ≠ 61 := by
  decide

theorem encodeB64_ne_nil (x : Nat) (xs : List Nat) : encodeB64 (x :: xs) ≠ [] := by
  match xs with
  | [] => simp [encodeB64]
  | [a] => simp [encodeB64]
  | a :: b :: cs => simp [encodeB64]

/-- Round trip: decoding an encoding returns the original bytes. -/
theorem decodeB64_encodeB64 :
    ∀ bs : List Nat, (∀ b ∈ bs, b < 256) → decodeB64 (encodeB64 bs) = some bs
  | [], _ => rfl
  | [b0], h => by
      have h0 : b0 < 256 := h b0 (by simp)
      have hs0 := sextet_roundtrip ⟨b0 / 4, by omega⟩
      have hs1 := sextet_roundtrip ⟨b0 % 4 * 16, by omega⟩
      simp only [encodeB64, decodeB64, decodeLast, if_pos rfl]
      simp only at hs0 hs1
      rw [hs0, hs1]
      simp only [Nat.mul_mod_left, reduceIte, Option.some.injEq, List.cons.injEq, and_true]
      omega
  | [b0, b1], h => by
      have h0 : b0 < 256 := h b0 (by simp)
      have h1 : b1 < 256 := h b1 (by simp)
      have hs0 := sextet_roundtrip ⟨b0 / 4, by omega⟩
      have hs1 := sextet_roundtrip ⟨b0 % 4 * 16 + b1 / 16, by omega⟩
      have hs2 := sextet_roundtrip ⟨b1 % 16 * 4, by omega⟩
      have hne : byteOfSextet (b1 % 16 * 4) ≠ 61 := byteOfSextet_ne_61 ⟨b1 % 16 * 4, by omega⟩
      simp only at hs0 hs1 hs2
      simp only [encodeB64, decodeB64, decodeLast, if_pos rfl, if_neg hne]
      rw [hs0, hs1, hs2]
      simp only [Nat.mul_mod_left, reduceIte, Option.some.injEq, List.cons.injEq, and_true]
      omega
  | b0 :: b1 :: b2 :: rest, h => by
      have h0 : b0 < 256 := h b0 (by simp)
      have h1 : b1 < 256 := h b1 (by simp)
      have h2 : b2 < 256 := h b2 (by simp)
      have hs0 := sextet_roundtrip ⟨b0 / 4, by omega⟩
      have hs1 := sextet_roundtrip ⟨b0 % 4 * 16 + b1 / 16, by omega⟩
      have hs2 := sextet_roundtrip ⟨b1 % 16 * 4 + b2 / 64, by omega⟩
      have hs3 := sextet_roundtrip ⟨b2 % 64, by omega⟩
      simp only at hs0 hs1 hs2 hs3
      match rest with
      | [] =>
          have hne : byteOfSextet (b2 % 64) ≠ 61 :=
            byteOfSextet_ne_61 ⟨b2 % 64, by omega⟩
          simp only [encodeB64, decodeB64, decodeLast, if_pos rfl, if_neg hne]
          rw [hs0, hs1, hs2, hs3]
          simp only [ite_self, if_true, Option.some.injEq, List.cons.injEq, and_true]
          omega
      | r :: rs =>
          have hih := decodeB64_encodeB64 (r :: rs) (fun b hb => h b (by simp [hb]))
          have hne := encodeB64_ne_nil r rs
          simp only [encodeB64, decodeB64, if_neg hne]
          rw [hs0, hs1, hs2, hs3, hih]
          simp only [Option.some.injEq, List.cons.injEq, and_true, true_and, and_self]
          omega

/-! ### Paths and the filesystem

Unix `PathBuf` semantics as the two handlers use them: a path is absolute when
it starts with `'/'`; `join` replaces the base when the joined path is
absolute, otherwise it appends with a separator. The filesystem is an
association list from paths to byte contents; `fs::write` prepends, lookup
takes the most recent entry. -/

def pathIsAbsolute (p : String) : Bool :=
  match p.data with
  | c :: _ => c == '/'
  | [] => false

/-- `Path::is_relative`. -/
def pathIsRelative (p : String) : Bool := !pathIsAbsolute p

/-- `PathBuf::join`. -/
def pathJoin (base p : String) : String :=
  if pathIsAbsolute p then p else base ++ "/" ++ p

abbrev FS := List (String × List Nat)

def fsLookup : FS → String → Option (List Nat)
  | [], _ => none
  | (q, v) :: rest, p => if q = p then some v else fsLookup rest p

def fsWrite (fs : FS) (p : String) (v : List Nat) : FS := (p, v) :: fs

/-! ### Server data model (serve.rs) -/

/-- Server configuration (`struct Config` in serve.rs). -/
structure Config where
  port : Nat
  api_key : String
  storage_path : String
  server_url : String
deriving DecidableEq

/-- The observable HTTP responses the two handlers produce. `ok_json url` is
200 with body `{"url": url}` (struct `UploadResponse`); `ok_file` is 200 with
a content type and raw bytes. -/
inductive Response where
  | ok_json (url : String)
  | ok_file (contents : List Nat) (contentType : String)
  | badRequest
  | unauthorized
  | notFound
  | internalServerError
deriving DecidableEq

def Response.status : Response → Nat
  | .ok_json _ => 200
  | .ok_file _ _ => 200
  | .badRequest => 400
  | .unauthorized => 401
  | .notFound => 404
  | .internalServerError => 500

deriving instance DecidableEq for Except

/-- One multipart field: `content_disposition().get_name()` (may be absent)
and the chunk stream `field.next()` yields — each chunk either data or a
multipart read error. -/
structure MultipartField where
  name : Option String
  chunks : List (Except Unit (List Nat))
deriving DecidableEq

/-- One step of `payload.try_next()`: a field, or a stream error (`Err`). -/
inductive PayloadItem where
  | field (f : MultipartField)
  | streamErr
deriving DecidableEq

/-- The chunk-collection loop of `upload`: concatenate the chunks in order;
the first chunk error aborts (the handler maps it to 500). -/
def collectChunks : List (Except Unit (List Nat)) → Except Unit (List Nat)
  | [] => .ok []
  | .error e :: _ => .error e
  | .ok d :: rest =>
      match collectChunks rest with
      | .ok ds => .ok (d ++ ds)
      | .error e => .error e

/-- The `while let Ok(Some(mut field)) = payload.try_next().await` loop of
`upload`: skip fields not named `"image"`; on the first `"image"` field,
collect chunks (error ⇒ 500), base64-decode (error ⇒ 400), write the decoded
bytes under `storage_path/filename` (write failure ⇒ 500) and answer 200 with
the URL. Stream end or a `try_next` error leaves the loop ⇒ 400. -/
def processFields (config : Config) (filename : String) (writeOk : Bool) (fs : FS) :
    List PayloadItem → Response × FS
  | [] => (.badRequest, fs)
  | .streamErr :: _ => (.badRequest, fs)
  | .field f :: rest =>
      match f.name with
      | none => processFields config filename writeOk fs rest
      | some n =>
          if n = "image" then
            match collectChunks f.chunks with
            | .error _ => (.internalServerError, fs)
            | .ok bytes =>
                match decodeB64 bytes with
                | none => (.badRequest, fs)
                | some decoded =>
                    if writeOk then
                      (.ok_json (config.server_url ++ "/" ++ filename),
                       fsWrite fs (pathJoin config.storage_path filename) decoded)
                    else (.internalServerError, fs)
          else processFields config filename writeOk fs rest

/-- `async fn upload`: `configResult` is what `load_config()` returned (`none`
⇒ 500); `auth` is the Authorization header as a string (`none` when the header
is absent or not a valid string ⇒ 401; a mismatch with `api_key` ⇒ 401);
`filename` is what `generate_filename()` produced and `writeOk` whether
`fs::write` succeeds. Returns the response and the filesystem afterwards. -/
def upload (configResult : Option Config) (auth : Option String)
    (payload : List PayloadItem) (filename : String) (writeOk : Bool) (fs : FS) :
    Response × FS :=
  match configResult with
  | none => (.internalServerError, fs)
  | some config =>
      match auth with
      | none => (.unauthorized, fs)
      | some a =>
          if a ≠ config.api_key then (.unauthorized, fs)
          else processFields config filename writeOk fs payload

/-- `async fn serve_image`: join the path segment onto `storage_path`; if the
path exists serve the raw bytes as `image/png` (a read failure after the
existence check, `readOk = false`, ⇒ 500); otherwise 404. -/
def serve_image (configResult : Option Config) (filename : String) (fs : FS)
    (readOk : Bool) : Response :=
  match configResult with
  | none => .internalServerError
  | some config =>
      match fsLookup fs (pathJoin config.storage_path filename) with
      | some contents =>
          if readOk then .ok_file contents "image/png" else .internalServerError
      | none => .notFound

/-- `fn load_config` (serve.rs), after the read and TOML parse: `home` is
`home_dir()` (`none` ⇒ failure) and `parsed` the parse result. A relative
`storage_path` is rewritten to `<home>/<storage_path>`. -/
def load_config (home : Option String) (parsed : Option Config) : Option Config :=
  match home, parsed with
  | some h, some config =>
      if pathIsRelative config.storage_path then
        some { config with storage_path := pathJoin h config.storage_path }
      else some config
  | _, _ => none

/-! ### Filename generator -/

/-- `rand::distributions::Alphanumeric`'s character set, in its order. -/
def GEN_ASCII_STR_CHARSET : List Char :=
  "ABCDEFGHIJKLMNOPQRSTUVWXYZabcdefghijklmnopqrstuvwxyz0123456789".data

theorem charset_length : GEN_ASCII_STR_CHARSET.length = 62 := rfl

/-- `fn generate_filename`: ten uniformly sampled alphanumeric characters
(the sampler is the explicit `samples` stream) followed by `".png"`. -/
def generate_filename (samples : Nat → Fin 62) : String :=
  let random_string : String :=
    ⟨(List.range 10).map fun i =>
      GEN_ASCII_STR_CHARSET.get (Fin.cast charset_length.symm (samples i))⟩
  random_string ++ ".png"

/-! ### Upload client (upload.rs) -/

/-- Client configuration (`struct Config` in upload.rs). -/
structure ClientConfig where
  server_url : String
  api_key : String
deriving DecidableEq

/-- `reqwest::StatusCode::is_success`. -/
def statusIsSuccess (s : Nat) : Bool := decide (200 ≤ s ∧ s < 300)

/-- The outcome of each external step the client's `main` takes, in program
order: config load, `fs::read`, `image::load_from_memory`,
`write_to(.., Png)`, the HTTP exchange (`none` = send failed), the parsed
response body (`none` = not JSON; `some none` = no string field `"url"`;
`some (some u)` = that field), and the two clipboard operations. -/
structure ClientEnv where
  config : Option ClientConfig
  fileBytes : Option (List Nat)
  decodeOk : Bool
  encodedPng : Option (List Nat)
  responseStatus : Option Nat
  responseJsonUrl : Option (Option String)
  clipboardInitOk : Bool
  clipboardSetOk : Bool
deriving DecidableEq

/-- `main` of upload.rs as a function from the environment and the initial
clipboard contents to `(exit code, final clipboard contents)`: every failing
step returns `Err` through `?`/`anyhow`, which exits nonzero with the
clipboard untouched; only the last step writes the clipboard. -/
def clientRun (env : ClientEnv) (clip0 : String) : Nat × String :=
  match env.config with
  | none => (1, clip0)
  | some _config =>
      match env.fileBytes with
      | none => (1, clip0)
      | some _image_data =>
          if !env.decodeOk then (1, clip0)
          else
            match env.encodedPng with
            | none => (1, clip0)
            | some png =>
                let _base64_image := encodeB64 png
                match env.responseStatus with
                | none => (1, clip0)
                | some status =>
                    if !statusIsSuccess status then (1, clip0)
                    else
                      match env.responseJsonUrl with
                      | none => (1, clip0)
                      | some none => (1, clip0)
                      | some (some url) =>
                          if !env.clipboardInitOk then (1, clip0)
                          else if !env.clipboardSetOk then (1, clip0)
                          else (0, url)

/-! ### The handler's field scan, as a specification-side function -/

/-- What the field loop reaches: `none` when no `"image"` field is processed
(stream end or a `try_next` error first), otherwise the chunk-collection
outcome of the first field named `"image"`. -/
def firstImageOutcome : List PayloadItem → Option (Except Unit (List Nat))
  | [] => none
  | .streamErr :: _ => none
  | .field f :: rest =>
      match f.name with
      | none => firstImageOutcome rest
      | some n =>
          if n = "image" then some (collectChunks f.chunks)
          else firstImageOutcome rest

/-- Every step of the client pipeline succeeding, with `st` the HTTP status
of the exchange and `url` the string under the response's `"url"` key. -/
def clientAllStepsSucceed (env : ClientEnv) (st : Nat) (url : String) : Prop :=
  env.config ≠ none ∧ env.fileBytes ≠ none ∧ env.decodeOk = true ∧
  env.encodedPng ≠ none ∧ env.responseStatus = some st ∧
  statusIsSuccess st = true ∧ env.responseJsonUrl = some (some url) ∧
  env.clipboardInitOk = true ∧ env.clipboardSetOk = true

/-! ### Structural lemmas -/

theorem fsLookup_fsWrite (fs : FS) (p : String) (v : List Nat) :
    fsLookup (fsWrite fs p v) p = some v := by
  simp [fsWrite, fsLookup]

theorem pathIsAbsolute_append (a b : String) (h : pathIsAbsolute a = true) :
    pathIsAbsolute (a ++ b) = true := by
  obtain ⟨la⟩ := a
  obtain ⟨lb⟩ := b
  cases la with
  | nil => simp [pathIsAbsolute] at h
  | cons c cs =>
      have : (String.mk (c :: cs) ++ String.mk lb).data = c :: (cs ++ lb) :=
        String.data_append _ _
      simp only [pathIsAbsolute] at h ⊢
      rw [this]
      exact h

/-- The field loop realises the scan `firstImageOutcome` describes. -/
theorem processFields_eq (config : Config) (filename : String) (writeOk : Bool) (fs : FS) :
    ∀ payload : List PayloadItem,
      processFields config filename writeOk fs payload =
        match firstImageOutcome payload with
        | none => (.badRequest, fs)
        | some (.error _) => (.internalServerError, fs)
        | some (.ok bytes) =>
            match decodeB64 bytes with
            | none => (.badRequest, fs)
            | some decoded =>
                if writeOk then
                  (.ok_json (config.server_url ++ "/" ++ filename),
                   fsWrite fs (pathJoin config.storage_path filename) decoded)
                else (.internalServerError, fs)
  | [] => rfl
  | .streamErr :: rest => rfl
  | .field f :: rest => by
      rcases hname : f.name with _ | n
      · simp only [processFields, firstImageOutcome, hname]
        exact processFields_eq config filename writeOk fs rest
      · by_cases hn : n = "image"
        · subst hn
          rcases hc : collectChunks f.chunks with e | bytes
          · simp only [processFields, firstImageOutcome, hname, hc, reduceIte]
          · rcases hd : decodeB64 bytes with _ | decoded <;>
              simp only [processFields, firstImageOutcome, hname, hc, hd, reduceIte]
        · simp only [processFields, firstImageOutcome, hname, if_neg hn]
          exact processFields_eq config filename writeOk fs rest

theorem firstImageOutcome_eq_none :
    ∀ payload : List PayloadItem,
      (∀ f, PayloadItem.field f ∈ payload → f.name ≠ some "image") →
      firstImageOutcome payload = none
  | [], _ => rfl
  | .streamErr :: _, _ => rfl
  | .field f :: rest, h => by
      have hf : f.name ≠ some "image" := h f (by simp)
      have hrest := firstImageOutcome_eq_none rest (fun g hg => h g (by simp [hg]))
      rcases hname : f.name with _ | n
      · simpa only [firstImageOutcome, hname] using hrest
      · have hn : n ≠ "image" := by
          intro he
          exact hf (by rw [hname, he])
        simpa only [firstImageOutcome, hname, if_neg hn] using hrest

theorem firstImageOutcome_append_streamErr :
    ∀ pre : List PayloadItem,
      (∀ f, PayloadItem.field f ∈ pre → f.name ≠ some "image") →
      ∀ rest : List PayloadItem,
        firstImageOutcome (pre ++ .streamErr :: rest) = none
  | [], _, _ => rfl
  | .streamErr :: _, _, _ => rfl
  | .field f :: pre, h, rest => by
      have hf : f.name ≠ some "image" := h f (by simp)
      have hpre := firstImageOutcome_append_streamErr pre (fun g hg => h g (by simp [hg])) rest
      rcases hname : f.name with _ | n
      · simpa only [List.cons_append, firstImageOutcome, hname] using hpre
      · have hn : n ≠ "image" := by
          intro he
          exact hf (by rw [hname, he])
        simpa only [List.cons_append, firstImageOutcome, hname, if_neg hn] using hpre

/-! ### Claim theorems -/

/-- C1: Round-trip identity. An authenticated POST /upload whose `image`
field carries the standard base64 encoding of `image_bytes` answers 200 with
the JSON url `<server_url>/<filename>`, writes the decoded bytes under the
storage path, and a GET of that filename then answers 200 with body exactly
`image_bytes`. -/
theorem upload_get_roundtrip (config : Config) (image_bytes : List Nat)
    (chunks : List (Except Unit (List Nat))) (filename : String) (fs : FS)
    (hbytes : ∀ b ∈ image_bytes, b < 256)
    (hchunks : collectChunks chunks = .ok (encodeB64 image_bytes)) :
    upload (some config) (some config.api_key) [.field ⟨some "image", chunks⟩]
        filename true fs
      = (.ok_json (config.server_url ++ "/" ++ filename),
         fsWrite fs (pathJoin config.storage_path filename) image_bytes) ∧
    (Response.ok_json (config.server_url ++ "/" ++ filename)).status = 200 ∧
    serve_image (some config) filename
        (fsWrite fs (pathJoin config.storage_path filename) image_bytes) true
      = .ok_file image_bytes "image/png" ∧
    (Response.ok_file image_bytes "image/png").status = 200 := by
  have hdec := decodeB64_encodeB64 image_bytes hbytes
  refine ⟨?_, rfl, ?_, rfl⟩
  · simp [upload, processFields, hchunks, hdec]
  · simp [serve_image, fsLookup_fsWrite]

theorem upload_get_roundtrip_witness :
    upload (some ⟨8080, "secret", "/srv/images", "http://localhost:8080"⟩)
        (some "secret")
        [.field ⟨some "image", [.ok (encodeB64 [137, 80, 78, 71])]⟩]
        "aB3xYz9QwE.png" true []
      = (.ok_json ("http://localhost:8080" ++ "/" ++ "aB3xYz9QwE.png"),
         fsWrite [] (pathJoin "/srv/images" "aB3xYz9QwE.png") [137, 80, 78, 71]) :=
  (upload_get_roundtrip ⟨8080, "secret", "/srv/images", "http://localhost:8080"⟩
    [137, 80, 78, 71] [.ok (encodeB64 [137, 80, 78, 71])] "aB3xYz9QwE.png" []
    (by decide) (by decide)).1

/-- C2: Auth failure is atomic. When the Authorization header is absent or not
a valid string (`auth = none`), or present but not equal to the configured
`api_key`, the upload handler answers 401 and the filesystem is unchanged. -/
theorem upload_auth_unauthorized (config : Config) (auth : Option String)
    (payload : List PayloadItem) (filename : String) (writeOk : Bool) (fs : FS)
    (hauth : ∀ a, auth = some a → a ≠ config.api_key) :
    upload (some config) auth payload filename writeOk fs = (.unauthorized, fs) := by
  cases auth with
  | none => rfl
  | some a => simp [upload, if_pos (hauth a rfl)]

theorem upload_auth_unauthorized_witness :
    upload (some ⟨8080, "secret", "/srv/images", "http://localhost:8080"⟩)
        (some "wrong") [.field ⟨some "image", [.ok [65]]⟩] "x.png" true []
      = (.unauthorized, []) :=
  upload_auth_unauthorized ⟨8080, "secret", "/srv/images", "http://localhost:8080"⟩
    (some "wrong") [.field ⟨some "image", [.ok [65]]⟩] "x.png" true []
    (fun a ha => by
      injection ha with h
      rw [← h]
      decide)

/-- C3 (counterexample): with a loaded config (`some …`) and a filesystem
whose write would succeed (`writeOk = true`), a multipart chunk read error
inside the `image` field still makes the handler answer 500 — so 500 is not
reserved to config-load and write failures, and this client-input failure
mode does not map to 400. -/
theorem upload_500_chunk_error_cex :
    (upload (some ⟨8080, "k", "/srv", "http://h"⟩) (some "k")
        [.field ⟨some "image", [.error ()]⟩] "f.png" true []).1.status = 500 ∧
    (some (⟨8080, "k", "/srv", "http://h"⟩ : Config) ≠ none ∧ true ≠ false) := by
  decide

/-- C3 (amended): the upload handler answers 500 only for a config-load
failure, a filesystem write failure, or a multipart chunk read error while
reading the `image` field. -/
theorem upload_500_sources (configResult : Option Config) (auth : Option String)
    (payload : List PayloadItem) (filename : String) (writeOk : Bool) (fs : FS)
    (h500 : (upload configResult auth payload filename writeOk fs).1.status = 500) :
    configResult = none ∨ writeOk = false ∨
      firstImageOutcome payload = some (.error ()) := by
  cases configResult with
  | none => exact Or.inl rfl
  | some config =>
      cases auth with
      | none => simp [upload, Response.status] at h500
      | some a =>
          by_cases ha : a = config.api_key
          · rw [show upload (some config) (some a) payload filename writeOk fs
                  = processFields config filename writeOk fs payload from by
                simp [upload, ha], processFields_eq] at h500
            rcases hio : firstImageOutcome payload with _ | (e | bytes)
            · rw [hio] at h500
              simp [Response.status] at h500
            · cases e
              exact Or.inr (Or.inr rfl)
            · rw [hio] at h500
              rcases hd : decodeB64 bytes with _ | decoded
              · simp [hd, Response.status] at h500
              · cases writeOk with
                | false => exact Or.inr (Or.inl rfl)
                | true => simp [hd, Response.status] at h500
          · have hun : upload (some config) (some a) payload filename writeOk fs
                = (.unauthorized, fs) := by
              simp [upload, if_pos ha]
            rw [hun] at h500
            simp [Response.status] at h500

theorem upload_500_sources_witness :
    (none : Option Config) = none ∨ true = false ∨
      firstImageOutcome [] = some (.error ()) :=
  upload_500_sources none none [] "x.png" true [] (by decide)

/-- C4: an authenticated upload whose accumulated `image`-field bytes fail
standard base64 decoding answers 400 and leaves the filesystem unchanged. -/
theorem upload_bad_base64 (config : Config) (payload : List PayloadItem)
    (filename : String) (writeOk : Bool) (fs : FS) (bytes : List Nat)
    (himg : firstImageOutcome payload = some (.ok bytes))
    (hdec : decodeB64 bytes = none) :
    upload (some config) (some config.api_key) payload filename writeOk fs
      = (.badRequest, fs) := by
  have hu : upload (some config) (some config.api_key) payload filename writeOk fs
      = processFields config filename writeOk fs payload := by
    simp [upload]
  rw [hu, processFields_eq, himg]
  simp [hdec]

theorem upload_bad_base64_witness :
    upload (some ⟨8080, "secret", "/srv", "http://h"⟩) (some "secret")
        [.field ⟨some "image", [.ok [33]]⟩] "y.png" true []
      = (.badRequest, []) :=
  upload_bad_base64 ⟨8080, "secret", "/srv", "http://h"⟩
    [.field ⟨some "image", [.ok [33]]⟩] "y.png" true [] [33]
    (by decide) (by decide)

/-- C5: an authenticated upload whose multipart body has no field named
`image` answers 400, however many other fields are present, and leaves the
filesystem unchanged. -/
theorem upload_no_image_400 (config : Config) (payload : List PayloadItem)
    (filename : String) (writeOk : Bool) (fs : FS)
    (hno : ∀ f, PayloadItem.field f ∈ payload → f.name ≠ some "image") :
    upload (some config) (some config.api_key) payload filename writeOk fs
      = (.badRequest, fs) := by
  have h1 := firstImageOutcome_eq_none payload hno
  have hu : upload (some config) (some config.api_key) payload filename writeOk fs
      = processFields config filename writeOk fs payload := by
    simp [upload]
  rw [hu, processFields_eq]
  simp [h1]

theorem upload_no_image_400_witness :
    upload (some ⟨8080, "secret", "/srv", "http://h"⟩) (some "secret")
        [.field ⟨some "file", [.ok [1, 2]]⟩, .field ⟨none, [.error ()]⟩]
        "w.png" true []
      = (.badRequest, []) :=
  upload_no_image_400 ⟨8080, "secret", "/srv", "http://h"⟩
    [.field ⟨some "file", [.ok [1, 2]]⟩, .field ⟨none, [.error ()]⟩]
    "w.png" true []
    (by
      intro f hf
      simp only [List.mem_cons, List.not_mem_nil, or_false,
        PayloadItem.field.injEq] at hf
      rcases hf with rfl | rfl <;> decide)

/-- Every character of the generator's alphabet is ASCII alphanumeric. -/
theorem charset_alphanum : ∀ c ∈ GEN_ASCII_STR_CHARSET, c.isAlphanum = true := by
  decide

/-- C6: the serve handler joins the filename onto `storage_path`; an existing
path is answered 200 `image/png` with the raw stored bytes whatever they are,
a missing path 404, and a read failure after the existence check 500. -/
theorem serve_image_behavior (config : Config) (filename : String) (fs : FS)
    (readOk : Bool) :
    (∀ contents, fsLookup fs (pathJoin config.storage_path filename) = some contents →
        readOk = true →
        serve_image (some config) filename fs readOk = .ok_file contents "image/png") ∧
    (∀ contents, fsLookup fs (pathJoin config.storage_path filename) = some contents →
        readOk = false →
        serve_image (some config) filename fs readOk = .internalServerError) ∧
    (fsLookup fs (pathJoin config.storage_path filename) = none →
        serve_image (some config) filename fs readOk = .notFound) ∧
    (∀ contents contentType, (Response.ok_file contents contentType).status = 200) ∧
    Response.notFound.status = 404 ∧
    Response.internalServerError.status = 500 := by
  refine ⟨?_, ?_, ?_, fun _ _ => rfl, rfl, rfl⟩
  · intro c h hr
    subst hr
    simp [serve_image, h]
  · intro c h hr
    subst hr
    simp [serve_image, h]
  · intro h
    simp [serve_image, h]

theorem serve_image_behavior_witness :
    serve_image (some ⟨8080, "k", "/srv", "http://h"⟩) "a.png"
        [(pathJoin "/srv" "a.png", [9, 9, 9])] true
      = .ok_file [9, 9, 9] "image/png" :=
  (serve_image_behavior ⟨8080, "k", "/srv", "http://h"⟩ "a.png"
      [(pathJoin "/srv" "a.png", [9, 9, 9])] true).1
    [9, 9, 9] (by decide) rfl

/-- C7: config path resolution. With an absolute home directory, a relative
`storage_path` is rewritten to `<home>/<storage_path>`, an absolute one is
kept, and the loaded `storage_path` is always absolute. -/
theorem load_config_storage_path (home : String) (config config2 : Config)
    (habs : pathIsAbsolute home = true)
    (hload : load_config (some home) (some config) = some config2) :
    (pathIsRelative config.storage_path = true →
        config2.storage_path = home ++ "/" ++ config.storage_path) ∧
    (pathIsRelative config.storage_path = false →
        config2.storage_path = config.storage_path) ∧
    pathIsAbsolute config2.storage_path = true := by
  by_cases hrel : pathIsRelative config.storage_path = true
  · have habs2 : pathIsAbsolute config.storage_path = false := by
      simpa [pathIsRelative] using hrel
    have hjoin : pathJoin home config.storage_path = home ++ "/" ++ config.storage_path := by
      simp [pathJoin, habs2]
    have hc2 : config2 = { config with storage_path := pathJoin home config.storage_path } := by
      simp only [load_config, if_pos hrel, Option.some.injEq] at hload
      exact hload.symm
    subst hc2
    refine ⟨fun _ => hjoin, fun hc => absurd hrel (by simp [hc]), ?_⟩
    show pathIsAbsolute (pathJoin home config.storage_path) = true
    rw [hjoin]
    exact pathIsAbsolute_append (home ++ "/") config.storage_path
      (pathIsAbsolute_append home "/" habs)
  · have habs2 : pathIsAbsolute config.storage_path = true := by
      have h := hrel
      revert h
      simp [pathIsRelative]
    have hc2 : config2 = config := by
      simp only [load_config, if_neg hrel, Option.some.injEq] at hload
      exact hload.symm
    subst hc2
    exact ⟨fun hc => absurd hc hrel, fun _ => rfl, habs2⟩

theorem load_config_storage_path_witness :
    (pathIsRelative "images" = true →
        ("/home/u/images" : String) = "/home/u" ++ "/" ++ "images") ∧
    (pathIsRelative "images" = false → ("/home/u/images" : String) = "images") ∧
    pathIsAbsolute "/home/u/images" = true :=
  load_config_storage_path "/home/u" ⟨8080, "k", "images", "http://h"⟩
    ⟨8080, "k", "/home/u/images", "http://h"⟩ (by decide) (by decide)

/-- C8: every generated filename is ten alphanumeric characters followed by
the literal `".png"`, fourteen characters in all. -/
theorem generate_filename_format (samples : Nat → Fin 62) :
    ∃ s : String,
      generate_filename samples = s ++ ".png" ∧
      s.length = 10 ∧
      (∀ c ∈ s.data, c.isAlphanum = true) ∧
      (generate_filename samples).length = 14 := by
  refine ⟨⟨(List.range 10).map fun i =>
      GEN_ASCII_STR_CHARSET.get (Fin.cast charset_length.symm (samples i))⟩,
    rfl, ?_, ?_, ?_⟩
  · simp [String.length]
  · intro c hc
    simp only [List.mem_map] at hc
    obtain ⟨i, _, rfl⟩ := hc
    exact charset_alphanum _ (List.get_mem _ _ _)
  · rw [show generate_filename samples
        = (⟨(List.range 10).map fun i =>
            GEN_ASCII_STR_CHARSET.get (Fin.cast charset_length.symm (samples i))⟩ : String)
          ++ ".png" from rfl]
    rw [String.length_append]
    simp [String.length]

/-- C9: client pipeline atomicity. When every step succeeds the run exits 0
with the clipboard set to the returned url verbatim; exit 0 happens only that
way, and then the clipboard holds the url; every other run is `(1, clip0)` —
the first failing step aborts with a nonzero exit and the clipboard left at
its initial contents; in particular a non-success HTTP status exits 1 with
the clipboard unchanged. -/
theorem client_pipeline_atomicity (env : ClientEnv) (clip0 : String) :
    (∀ st url, clientAllStepsSucceed env st url → clientRun env clip0 = (0, url)) ∧
    ((clientRun env clip0).1 = 0 →
        ∃ st url, clientAllStepsSucceed env st url ∧ (clientRun env clip0).2 = url) ∧
    ((clientRun env clip0).1 = 0 ∨ clientRun env clip0 = (1, clip0)) ∧
    (∀ st, env.responseStatus = some st → statusIsSuccess st = false →
        clientRun env clip0 = (1, clip0)) := by
  constructor
  · rintro st url ⟨hc, hf, hd, hp, hst, hsv, hu, hci, hcs⟩
    rcases hcfg : env.config with _ | c
    · exact absurd hcfg hc
    rcases hfb : env.fileBytes with _ | fb
    · exact absurd hfb hf
    rcases hpng : env.encodedPng with _ | png
    · exact absurd hpng hp
    simp [clientRun, hcfg, hfb, hd, hpng, hst, hsv, hu, hci, hcs]
  · obtain ⟨cfg, fb, dec, png, rst, ju, ci, cs⟩ := env
    refine ⟨?_, ?_, ?_⟩ <;>
      (rcases cfg with _ | cfg <;> rcases fb with _ | fb <;> cases dec <;>
        rcases png with _ | png <;> rcases rst with _ | rst <;>
        rcases ju with _ | (_ | ju) <;> cases ci <;> cases cs <;>
        simp_all [clientRun, clientAllStepsSucceed] <;>
        rcases hsv : statusIsSuccess rst with _ | _ <;>
        simp_all [clientRun, clientAllStepsSucceed])

theorem client_pipeline_atomicity_witness :
    clientRun
        { config := some ⟨"http://host", "k"⟩,
          fileBytes := some [255, 216, 255, 224],
          decodeOk := true,
          encodedPng := some [137, 80, 78, 71],
          responseStatus := some 200,
          responseJsonUrl := some (some "http://host/x.png"),
          clipboardInitOk := true,
          clipboardSetOk := true } "before"
      = (0, "http://host/x.png") :=
  (client_pipeline_atomicity
      { config := some ⟨"http://host", "k"⟩,
        fileBytes := some [255, 216, 255, 224],
        decodeOk := true,
        encodedPng := some [137, 80, 78, 71],
        responseStatus := some 200,
        responseJsonUrl := some (some "http://host/x.png"),
        clipboardInitOk := true,
        clipboardSetOk := true } "before").1 200 "http://host/x.png"
    (by unfold clientAllStepsSucceed; decide)

/-- C10: a multipart stream error (`try_next` returning `Err`) before any
`image` field ends the field loop exactly like end-of-stream: the handler
answers 400 with the filesystem unchanged, the same response as for the
truncated payload without the error and what follows. -/
theorem upload_stream_error_eof (config : Config) (pre rest : List PayloadItem)
    (filename : String) (writeOk : Bool) (fs : FS)
    (hpre : ∀ f, PayloadItem.field f ∈ pre → f.name ≠ some "image") :
    upload (some config) (some config.api_key) (pre ++ .streamErr :: rest)
        filename writeOk fs
      = (.badRequest, fs) ∧
    upload (some config) (some config.api_key) (pre ++ .streamErr :: rest)
        filename writeOk fs
      = upload (some config) (some config.api_key) pre filename writeOk fs := by
  have h1 := firstImageOutcome_append_streamErr pre hpre rest
  have h2 := firstImageOutcome_eq_none pre hpre
  have hu : ∀ pl, upload (some config) (some config.api_key) pl filename writeOk fs
      = processFields config filename writeOk fs pl := by
    intro pl
    simp [upload]
  constructor
  · rw [hu, processFields_eq]
    simp [h1]
  · rw [hu, hu, processFields_eq, processFields_eq]
    simp [h1, h2]

theorem upload_stream_error_eof_witness :
    upload (some ⟨8080, "k", "/srv", "http://h"⟩) (some "k")
        ([.field ⟨some "other", [.ok [1]]⟩] ++
          .streamErr :: [.field ⟨some "image", [.ok []]⟩])
        "z.png" true []
      = (.badRequest, []) :=
  (upload_stream_error_eof ⟨8080, "k", "/srv", "http://h"⟩
      [.field ⟨some "other", [.ok [1]]⟩] [.field ⟨some "image", [.ok []]⟩]
      "z.png" true []
      (by
        intro f hf
        simp only [List.mem_cons, List.not_mem_nil, or_false,
          PayloadItem.field.injEq] at hf
        subst hf
        decide)).1
